import Mathlib

/-!
Verification of the imagor request-orchestration engine (src/imagor.go, with
the older handler revision in src/unnamed/part_000) against its
natural-language specification.

Shallow embedding conventions:

* A `Blob` is an opaque handle to image bytes; the engine only ever inspects
  identity and emptiness of a blob (`isBlobEmpty`), so a blob is modelled as
  an identity tag together with its non-emptiness bit.  A Go `*Blob` that may
  be nil is `Option Blob`.
* Errors form the closed set of src error kinds (spec section 7) plus an
  `other` constructor for collaborator-specific errors.  `errors.Is(e, X)`
  for the sentinel context errors is modelled as equality with the
  corresponding constructor (the model does not wrap errors).
* A storage or loader consulted by `load` for the fixed request and key is
  observable only through the pair it hands back after the `checkBlob`
  normalisation, so a handler is modelled as that response pair
  `Option Blob × Option Err`.  The `origin` result of `load` identifies the
  serving storage by its index in the storage list.
* Goroutine fan-out (`save`, `del`) is modelled by recording the invocation
  (key and blob) in the result of the caller; timing of the fan-out is out of
  scope.  Contexts are modelled by the only observable the claims need: the
  chain of `suppressKey` markers.
-/

namespace Imagor

/-- Handle to image bytes: an identity tag plus the non-emptiness bit, the
only observables the engine reads from a blob (src/imagor.go uses blobs
solely through `isBlobEmpty`, passing them around otherwise untouched). -/
structure Blob where
  tag : Nat
  nonempty : Bool
  deriving DecidableEq, Repr

/-- The closed error set of the engine (spec section 7): the sentinel
`pass`, `notFound`, `signatureMismatch`, the two context sentinels
`deadlineExceeded` and `canceled`, `internal`, and `other` for
collaborator-specific errors. -/
inductive Err where
  | pass
  | notFound
  | signatureMismatch
  | deadlineExceeded
  | canceled
  | internal
  | other (n : Nat)
  deriving DecidableEq, Repr

/-- `isBlobEmpty` on a possibly-nil blob pointer: nil or an empty blob. -/
def isBlobEmpty : Option Blob → Bool
  | none => true
  | some b => !b.nonempty

/-- The response of one storage or loader to `Get` for the fixed request and
key, after `checkBlob` normalisation: the blob (possibly nil) and the error
(possibly nil). -/
abbrev Handler := Option Blob × Option Err

/-- Result of `load` (src/imagor.go lines 353-414): the blob, the serving
storage (`origin`, by index into the storage list, `none` when a loader or
nobody served the hit), and the error. -/
structure LoadResult where
  blob : Option Blob
  origin : Option Nat
  err : Option Err
  deriving DecidableEq, Repr

/-- Outcome of one `Get` loop of `load`: either the loop returned early on a
clean non-empty hit (recording the index of the serving handler), or it ran
off the end of the list carrying the accumulated blob and error. -/
inductive LoopOut where
  | early (blob : Option Blob) (idx : Nat)
  | done (blob : Option Blob) (err : Option Err)
  deriving DecidableEq, Repr

/-- The `Get` loop of `load` in bytes mode (src/imagor.go lines 379-390 for
storages and 391-401 for loaders; the two loops are textually identical up
to the origin assignment, which the caller reconstructs from the returned
index).  Each iteration: a non-empty blob overwrites the accumulator; a
non-empty blob with nil error returns immediately; the error accumulator is
unconditionally overwritten by this handler's error. -/
def getLoop : List Handler → Nat → Option Blob → Option Err → LoopOut
  | [], _, blob, err => .done blob err
  | (b, e) :: rest, i, blob, _ =>
    if isBlobEmpty b then getLoop rest (i + 1) blob e
    else if e = none then .early b i
    else getLoop rest (i + 1) b e

/-- `load` in bytes mode (src/imagor.go lines 353-414 with `metaMode`
false): empty key short-circuits to `ErrNotFound`; otherwise the storage
loop runs, then the loader loop continues from its accumulated state; a
clean storage hit records the storage as origin, a clean loader hit records
no origin; finally a nil error with an empty blob becomes `ErrNotFound`. -/
def load (storages loaders : List Handler) (key : String) : LoadResult :=
  if key = "" then ⟨none, none, some .notFound⟩
  else
    match getLoop storages 0 none none with
    | .early b i => ⟨b, some i, none⟩
    | .done blob err =>
      match getLoop loaders 0 blob err with
      | .early b _ => ⟨b, none, none⟩
      | .done blob2 err2 =>
        if err2 = none ∧ isBlobEmpty blob2 = true then ⟨blob2, none, some .notFound⟩
        else ⟨blob2, none, err2⟩

/-- A handler response that makes the `Get` loop return early: a non-empty
blob together with a nil error. -/
def CleanHit (h : Handler) : Prop := isBlobEmpty h.1 = false ∧ h.2 = none

instance : DecidablePred CleanHit := fun h =>
  decidable_of_iff (isBlobEmpty h.1 = false ∧ h.2 = none) Iff.rfl

/-- Declarative companion of the blob accumulator of the `Get` loop: each
non-empty handler blob overwrites the accumulator, so the fold retains the
most recently seen non-empty blob. -/
def tentative (hs : List Handler) (blob : Option Blob) : Option Blob :=
  hs.foldl (fun acc h => if isBlobEmpty h.1 then acc else h.1) blob

/-- Declarative companion of the error accumulator of the `Get` loop: the
error is unconditionally overwritten each iteration, so the fold keeps the
last handler's error. -/
def lastErr (hs : List Handler) (err : Option Err) : Option Err :=
  hs.foldl (fun _ h => h.2) err

/-- Result of `loadStorage` (src/imagor.go lines 319-332): the blob and
error of the inner `load`, the `isSave` flag, and the recorded `save`
fan-out invocation (key and blob handed to `app.save` on the source
storages), `none` when no save-back was attempted. -/
structure LSOut where
  blob : Option Blob
  isSave : Bool
  err : Option Err
  save : Option (String × Option Blob)
  deriving DecidableEq, Repr

/-- `loadStorage` (src/imagor.go lines 319-332): run `load` over source
storages then loaders; if it succeeded with a non-empty blob, a nil origin
and at least one source storage configured, set `isSave` and spawn the save
fan-out of the blob to the source storages under the image key.  The
singleflight wrapper is modelled in its deterministic sole-caller execution,
in which the closure runs. -/
def loadStorage (storages loaders : List Handler) (key : String) : LSOut :=
  let r := load storages loaders key
  if r.err = none ∧ isBlobEmpty r.blob = false ∧ r.origin = none ∧ 0 < storages.length then
    ⟨r.blob, true, r.err, some (key, r.blob)⟩
  else
    ⟨r.blob, false, r.err, none⟩

/-- The save-back condition of `loadStorage` (src/imagor.go line 325): the
load succeeded with a nil error, a non-empty blob, a nil origin, and at
least one source storage is configured. -/
abbrev SaveCond (storages loaders : List Handler) (key : String) : Prop :=
  (load storages loaders key).err = none ∧
    isBlobEmpty (load storages loaders key).blob = false ∧
    (load storages loaders key).origin = none ∧ 0 < storages.length

/-- A processor consulted by the chain for the fixed request: observable
through the (checkBlob-normalised) pair it returns for the current blob. -/
abbrev Proc := Option Blob → Option Blob × Option Err

/-- The processor loop of `Do` (src/imagor.go lines 282-308): nil error
adopts the returned blob, clears the error and stops; `ErrPass` with a
non-empty blob adopts that blob and continues, with an empty blob keeps the
current blob and continues; any other error overwrites the error
accumulator and continues unless it is deadline-exceeded, which stops the
loop at once. -/
def processorChain : List Proc → Option Blob → Option Err → Option Blob × Option Err
  | [], blob, err => (blob, err)
  | p :: rest, blob, err =>
    match p blob with
    | (b, none) => (b, none)
    | (b, some e) =>
      if e = .pass then
        if isBlobEmpty b then processorChain rest blob err
        else processorChain rest b err
      else
        if e = .deadlineExceeded then (blob, some e)
        else processorChain rest blob (some e)

/-- Outcome of the singleflight closure body of `Do`: the returned blob and
error, the recorded result-cache write (`app.save` on the result storages:
result key and blob), and the recorded source delete fan-out (`app.del` on
the source storages: image key). -/
structure DoOut where
  blob : Option Blob
  err : Option Err
  write : Option (String × Option Blob)
  delete : Option String
  deriving DecidableEq, Repr

/-- The body of the singleflight closure of `Do` after the result-cache
probe (src/imagor.go lines 269-315), taking the `loadStorage` outcome as
input: a load error or an empty blob returns immediately; otherwise the
processor chain runs (entered with a nil error accumulator); a nil final
error with result storages configured triggers the result-cache write of
the final blob under the result key; a non-nil final error with `isSave`
set triggers the delete fan-out on the source storages under the image
key. -/
def doWork (lsBlob : Option Blob) (isSave : Bool) (lsErr : Option Err)
    (procs : List Proc) (hasResultStorages : Bool) (resultKey imageKey : String) : DoOut :=
  if lsErr ≠ none then ⟨lsBlob, lsErr, none, none⟩
  else if isBlobEmpty lsBlob = true then ⟨lsBlob, lsErr, none, none⟩
  else
    let r := processorChain procs lsBlob none
    ⟨r.1, r.2,
      if r.2 = none ∧ hasResultStorages = true then some (resultKey, r.1) else none,
      if r.2 ≠ none ∧ isSave = true then some imageKey else none⟩

/-- Storage metadata record: the modification timestamp (spec section 3,
consumed by `loadResult` through `Stat.ModifiedTime`). -/
structure Stat where
  modifiedTime : Int
  deriving DecidableEq, Repr

/-- Response of one `Stat` call: the stat record (possibly nil) and the
error (possibly nil). -/
abbrev StatRes := Option Stat × Option Err

/-- `storageStat` (src/imagor.go lines 416-423): walk the source storages,
returning the first response whose stat is non-nil with nil error; with no
success the loop leaves the last response in the named results (nil pair
for an empty storage list). -/
def storageStat : List StatRes → StatRes
  | [] => (none, none)
  | [s] => s
  | s :: rest => if s.1 ≠ none ∧ s.2 = none then s else storageStat rest

/-- `loadResult` in bytes mode (src/imagor.go lines 334-351 with `metaMode`
false): probe the result storages by the result key (no loaders); a hit
(nil error, non-empty blob) is returned outright unless modified-time check
is on and an origin storage is known, in which case the hit is returned
only when the origin's stat and the first successful source-storage stat
are both available and the result is not older than the source; any other
path yields no blob.  `statOf i` is the origin storage's `Stat` response
for the result key, indexed like `load`'s origin. -/
def loadResult (resultStorages : List Handler) (resultKey : String)
    (modifiedTimeCheck : Bool) (statOf : Nat → StatRes) (srcStats : List StatRes) :
    Option Blob :=
  let r := load resultStorages [] resultKey
  if r.err = none ∧ isBlobEmpty r.blob = false then
    if modifiedTimeCheck = true ∧ r.origin ≠ none then
      match r.origin with
      | some i =>
        match statOf i with
        | (some resStat, none) =>
          match storageStat srcStats with
          | (some srcStat, none) =>
            if ¬(resStat.modifiedTime < srcStat.modifiedTime) then r.blob else none
          | _ => none
        | _ => none
      | none => none
    else r.blob
  else none

/-- A context, modelled by its only observable here: the chain of
`suppressKey` values (src/imagor.go lines 464-466), most recent first. -/
abbrev Ctx := List (String × Bool)

/-- `ctx.Value(suppressKey{key}).(bool)` : the most recently attached value
for the key, if any. -/
def ctxValue (ctx : Ctx) (key : String) : Option Bool :=
  match ctx.find? (fun kv => kv.1 == key) with
  | some kv => some kv.2
  | none => none

/-- `context.WithValue(ctx, suppressKey{key}, v)`. -/
def ctxWith (ctx : Ctx) (key : String) (v : Bool) : Ctx :=
  (key, v) :: ctx

/-- Outcome of `suppress`: the returned blob and error, whether the call
was routed through the singleflight group (`g.DoChan`), the context the
closure `fn` was invoked with, and whether the key was forgotten from the
group (`g.Forget`, on a canceled closure error). -/
structure SupOut where
  blob : Option Blob
  err : Option Err
  viaGroup : Bool
  fnCtx : Ctx
  forgot : Bool
  deriving Repr

/-- `suppress` (src/imagor.go lines 468-501) in its deterministic
sole-caller execution with a live caller context: if the context already
carries a true `suppressKey` marker for the key, call `fn` directly with
the unchanged context, bypassing the group; otherwise route through
`g.DoChan`, whose closure invokes `fn` with the marker attached and
forgets the key when `fn` fails with the cancellation error; the sole
caller then receives that same result from the channel. -/
def suppress (ctx : Ctx) (key : String) (fn : Ctx → Option Blob × Option Err) : SupOut :=
  if ctxValue ctx key = some true then
    let r := fn ctx
    ⟨r.1, r.2, false, ctx, false⟩
  else
    let c := ctxWith ctx key true
    let r := fn c
    ⟨r.1, r.2, true, c, r.2 == some .canceled⟩

/-- Modelled from the spec: error.go (the `Error` table and `WrapError`) is
not under src.  Spec sections 6 and 7 give the HTTP codes of the error
kinds (403, 404, 408 for the timeout rendering of deadline-exceeded, 500),
the rewrite of the sentinel `ErrPass` to `ErrNotFound` at the surface, and
the normalisation of anything unknown to `ErrInternal` (HTTP 500). -/
def errCode : Err → Nat
  | .signatureMismatch => 403
  | .notFound => 404
  | .pass => 404
  | .deadlineExceeded => 408
  | .canceled => 500
  | .internal => 500
  | .other _ => 500

/-- The error rewrite of the older handler's `ServeHTTP`
(src/unnamed/part_000 lines 141-145): an `ErrPass` that reached the surface
is rewritten to `ErrNotFound` before rendering. -/
def renderError (e : Err) : Err :=
  if e = .pass then .notFound else e

/-- Response body kinds of the rendering step of `ServeHTTP`. -/
inductive Body where
  | empty
  | blobBytes
  | jsonError
  deriving DecidableEq, Repr

/-- The rendering step of `ServeHTTP` for a bytes request (src/imagor.go
lines 157-193), given the outcome of `Do`: a cancellation error renders
499 with no body; any other error renders its code, with no body when the
error body is disabled, the blob as body when a non-empty blob is present,
and the JSON-encoded error otherwise; success renders 200, with the blob
body exactly when the blob is non-empty. -/
def render (blob : Option Blob) (err : Option Err) (disableErrorBody : Bool) : Nat × Body :=
  match err with
  | some e =>
    if e = .canceled then (499, .empty)
    else if disableErrorBody = true then (errCode e, .empty)
    else if isBlobEmpty blob = false then (errCode e, .blobBytes)
    else (errCode e, .jsonError)
  | none => if isBlobEmpty blob = true then (200, .empty) else (200, .blobBytes)

/-! ## Helper lemmas about the `Get` loop -/

/-- With no clean hit in the list, the `Get` loop runs off the end carrying
the most recently seen non-empty blob and the last handler's error. -/
theorem getLoop_noClean (hs : List Handler) : ∀ (i : Nat) (blob : Option Blob) (err : Option Err),
    (∀ h ∈ hs, ¬CleanHit h) →
    getLoop hs i blob err = .done (tentative hs blob) (lastErr hs err) := by
  induction hs with
  | nil => intro i blob err _; simp [getLoop, tentative, lastErr]
  | cons x rest ih =>
    intro i blob err hnc
    obtain ⟨b, e⟩ := x
    have hx := hnc (b, e) (List.mem_cons_self _ _)
    have hrest : ∀ h ∈ rest, ¬CleanHit h := fun h hm => hnc h (List.mem_cons_of_mem _ hm)
    by_cases hb : isBlobEmpty b = true
    · simp [getLoop, hb, ih (i + 1) blob e hrest, tentative, lastErr]
    · have he : ¬e = none := fun h0 => hx ⟨Bool.not_eq_true _ ▸ hb, h0⟩
      simp [getLoop, hb, he, ih (i + 1) b e hrest, tentative, lastErr]

/-- The `Get` loop returns early at the first clean hit, with that handler's
blob and its position. -/
theorem getLoop_firstClean (pre : List Handler) :
    ∀ (hd : Handler) (post : List Handler) (i : Nat) (blob : Option Blob) (err : Option Err),
    (∀ x ∈ pre, ¬CleanHit x) → CleanHit hd →
    getLoop (pre ++ hd :: post) i blob err = .early hd.1 (i + pre.length) := by
  induction pre with
  | nil =>
    intro hd post i blob err _ hc
    obtain ⟨b, e⟩ := hd
    obtain ⟨hb, he⟩ := hc
    dsimp only at hb he
    subst he
    simp [getLoop, hb]
  | cons x rest ih =>
    intro hd post i blob err hpre hc
    obtain ⟨b, e⟩ := x
    have hx := hpre (b, e) (List.mem_cons_self _ _)
    have hrest : ∀ y ∈ rest, ¬CleanHit y := fun y hy => hpre y (List.mem_cons_of_mem _ hy)
    by_cases hb : isBlobEmpty b = true
    · rw [List.cons_append, getLoop, if_pos hb, ih hd post (i + 1) blob e hrest hc]
      simp only [List.length_cons]
      congr 1
      omega
    · have he : ¬e = none := fun h0 => hx ⟨Bool.not_eq_true _ ▸ hb, h0⟩
      rw [List.cons_append, getLoop, if_neg hb, if_neg he, ih hd post (i + 1) b e hrest hc]
      simp only [List.length_cons]
      congr 1
      omega

/-- A list containing a clean hit splits at its first clean hit. -/
theorem firstCleanSplit (hs : List Handler) (hex : ∃ h ∈ hs, CleanHit h) :
    ∃ pre hd post, hs = pre ++ hd :: post ∧ (∀ x ∈ pre, ¬CleanHit x) ∧ CleanHit hd := by
  induction hs with
  | nil => simp at hex
  | cons x rest ih =>
    by_cases hx : CleanHit x
    · exact ⟨[], x, rest, rfl, by simp, hx⟩
    · obtain ⟨h, hm, hc⟩ := hex
      rcases List.mem_cons.mp hm with rfl | hm2
      · exact absurd hc hx
      · obtain ⟨pre, hd, post, heq, hpre, hc2⟩ := ih ⟨h, hm2, hc⟩
        refine ⟨x :: pre, hd, post, by simp [heq], ?_, hc2⟩
        intro y hy
        rcases List.mem_cons.mp hy with rfl | hy2
        · exact hx
        · exact hpre y hy2

/-- `tentative` splits along an append. -/
theorem tentative_append (hs1 hs2 : List Handler) (blob : Option Blob) :
    tentative (hs1 ++ hs2) blob = tentative hs2 (tentative hs1 blob) := by
  simp [tentative, List.foldl_append]

/-- `lastErr` splits along an append. -/
theorem lastErr_append (hs1 hs2 : List Handler) (err : Option Err) :
    lastErr (hs1 ++ hs2) err = lastErr hs2 (lastErr hs1 err) := by
  simp [lastErr, List.foldl_append]

/-! ## Helper lemmas about `load` -/

/-- With no clean hit among the storages and loaders, `load` returns the
most recently seen non-empty blob, no origin, and the last handler's error
subjected to the final `ErrNotFound` policy. -/
theorem load_noClean (s l : List Handler) (key : String) (hk : ¬key = "")
    (hnc : ∀ h ∈ s ++ l, ¬CleanHit h) :
    load s l key =
      ⟨tentative (s ++ l) none, none,
        if lastErr (s ++ l) none = none ∧ isBlobEmpty (tentative (s ++ l) none) = true
        then some .notFound else lastErr (s ++ l) none⟩ := by
  have hs : ∀ h ∈ s, ¬CleanHit h := fun h hm => hnc h (List.mem_append_left _ hm)
  have hl : ∀ h ∈ l, ¬CleanHit h := fun h hm => hnc h (List.mem_append_right _ hm)
  rw [load, if_neg hk, getLoop_noClean s 0 none none hs]
  simp only []
  rw [getLoop_noClean l 0 (tentative s none) (lastErr s none) hl]
  simp only [tentative_append, lastErr_append]
  split_ifs <;> rfl

/-- A first clean hit among the storages makes `load` return that blob at
once, with the storage recorded as origin and a nil error. -/
theorem load_cleanStorage (pre post l : List Handler) (hd : Handler) (key : String)
    (hk : ¬key = "") (hpre : ∀ x ∈ pre, ¬CleanHit x) (hc : CleanHit hd) :
    load (pre ++ hd :: post) l key = ⟨hd.1, some pre.length, none⟩ := by
  rw [load, if_neg hk, getLoop_firstClean pre hd post 0 none none hpre hc]
  simp

/-- With no clean hit among the storages, a first clean hit among the
loaders makes `load` return that blob at once, with no origin and a nil
error. -/
theorem load_cleanLoader (s pre post : List Handler) (hd : Handler) (key : String)
    (hk : ¬key = "") (hs : ∀ x ∈ s, ¬CleanHit x) (hpre : ∀ x ∈ pre, ¬CleanHit x)
    (hc : CleanHit hd) :
    load s (pre ++ hd :: post) key = ⟨hd.1, none, none⟩ := by
  rw [load, if_neg hk, getLoop_noClean s 0 none none hs]
  simp only []
  rw [getLoop_firstClean pre hd post 0 (tentative s none) (lastErr s none) hpre hc]

/-- A clean hit somewhere among the storages and loaders makes `load`
return a nil error (the traversal ends early on a clean success). -/
theorem load_err_none_of_clean (s l : List Handler) (key : String) (hk : ¬key = "")
    (hex : ∃ h ∈ s ++ l, CleanHit h) : (load s l key).err = none := by
  by_cases hsex : ∃ h ∈ s, CleanHit h
  · obtain ⟨pre, hd, post, heq, hpre, hc⟩ := firstCleanSplit s hsex
    rw [heq, load_cleanStorage pre post l hd key hk hpre hc]
  · have hs : ∀ h ∈ s, ¬CleanHit h := by
      intro h hm hc; exact hsex ⟨h, hm, hc⟩
    have hlex : ∃ h ∈ l, CleanHit h := by
      obtain ⟨h, hm, hc⟩ := hex
      rcases List.mem_append.mp hm with hm1 | hm2
      · exact absurd hc (hs h hm1)
      · exact ⟨h, hm2, hc⟩
    obtain ⟨pre, hd, post, heq, hpre, hc⟩ := firstCleanSplit l hlex
    rw [heq, load_cleanLoader s pre post hd key hk hs hpre hc]

/-- With every handler blob empty, the tentative blob accumulator is left
untouched. -/
theorem tentative_allEmpty (hs : List Handler) : ∀ (blob : Option Blob),
    (∀ h ∈ hs, isBlobEmpty h.1 = true) → tentative hs blob = blob := by
  induction hs with
  | nil => intro blob _; simp [tentative]
  | cons x rest ih =>
    intro blob hemp
    have hx := hemp x (List.mem_cons_self _ _)
    have hrest : ∀ h ∈ rest, isBlobEmpty h.1 = true :=
      fun h hm => hemp h (List.mem_cons_of_mem _ hm)
    simp [tentative, hx, ih blob hrest]
    exact ih blob hrest

/-! ## Claim C1 -/

/-- C1 as stated is false: the claim says the first non-empty blob seen is
retained as the tentative return value, but with two storages both
returning distinct non-empty blobs with errors, `load` returns the second
storage's blob, not the first's. -/
theorem C1_counterexample :
    (load [(some ⟨1, true⟩, some Err.internal), (some ⟨2, true⟩, some Err.internal)] [] "k").blob
        = some ⟨2, true⟩ ∧ (⟨2, true⟩ : Blob) ≠ ⟨1, true⟩ := by decide

/-- C1 (amended): in bytes mode, for every key and ordered storages-then-
loaders list, `load` retains the most recently seen non-empty blob (a later
non-empty blob replaces an earlier one) as the tentative return value,
returns immediately with that storage as origin on the first storage
yielding a non-empty blob and nil error (loaders likewise but recording no
origin), and a non-empty blob with error from an earlier handler is
returned only if no later handler produces a cleanly successful result. -/
theorem C1_amended_thm (s l pre1 post1 pre2 post2 : List Handler)
    (b1 b2 : Option Blob) (key : String) (hk : ¬key = "") :
    ((∀ h ∈ s ++ l, ¬CleanHit h) →
      (load s l key).blob = tentative (s ++ l) none ∧ (load s l key).origin = none) ∧
    (s = pre1 ++ (b1, none) :: post1 → isBlobEmpty b1 = false → (∀ x ∈ pre1, ¬CleanHit x) →
      load s l key = ⟨b1, some pre1.length, none⟩) ∧
    ((∀ h ∈ s, ¬CleanHit h) → l = pre2 ++ (b2, none) :: post2 → isBlobEmpty b2 = false →
      (∀ x ∈ pre2, ¬CleanHit x) → load s l key = ⟨b2, none, none⟩) := by
  refine ⟨?_, ?_, ?_⟩
  · intro hnc
    rw [load_noClean s l key hk hnc]
    exact ⟨rfl, rfl⟩
  · intro heq hb hpre
    subst heq
    exact load_cleanStorage pre1 post1 l (b1, none) key hk hpre ⟨hb, rfl⟩
  · intro hs heq hb hpre
    subst heq
    exact load_cleanLoader s pre2 post2 (b2, none) key hk hs hpre ⟨hb, rfl⟩

/-- Witness for C1: the later of two erroring non-empty storages wins the
tentative value; an earlier erroring storage is superseded by a later clean
storage hit recorded as origin; and a clean loader hit after erroring
handlers is returned with no origin. -/
theorem C1_witness :
    ((load [(some ⟨1, true⟩, some Err.internal)] [(some ⟨2, true⟩, some Err.internal)] "k").blob
        = some ⟨2, true⟩ ∧
      (load [(some ⟨1, true⟩, some Err.internal)] [(some ⟨2, true⟩, some Err.internal)] "k").origin
        = none) ∧
    load [(some ⟨1, true⟩, some Err.internal), (some ⟨2, true⟩, none)] [] "k"
        = ⟨some ⟨2, true⟩, some 1, none⟩ ∧
    load [((none : Option Blob), some Err.internal)]
        [((none : Option Blob), some Err.pass), (some ⟨3, true⟩, none)] "k"
        = ⟨some ⟨3, true⟩, none, none⟩ := by
  refine ⟨?_, ?_, ?_⟩
  · have h := (C1_amended_thm [(some ⟨1, true⟩, some Err.internal)]
      [(some ⟨2, true⟩, some Err.internal)] [] [] [] [] none none "k" (by decide)).1 (by decide)
    exact ⟨h.1.trans (by decide), h.2⟩
  · have h := (C1_amended_thm [(some ⟨1, true⟩, some Err.internal), (some ⟨2, true⟩, none)] []
      [(some ⟨1, true⟩, some Err.internal)] [] [] [] (some ⟨2, true⟩) none "k" (by decide)).2.1
    exact h rfl (by decide) (by decide)
  · have h := (C1_amended_thm [((none : Option Blob), some Err.internal)]
      [((none : Option Blob), some Err.pass), (some ⟨3, true⟩, none)]
      [] [] [((none : Option Blob), some Err.pass)] [] none (some ⟨3, true⟩) "k" (by decide)).2.2
    exact h (by decide) rfl (by decide) (by decide)

/-! ## Claim C10 -/

/-- C10 as stated is false: the claim says the error returned by `load` is
always the error of the last handler consulted, but when the single
consulted loader returns an empty blob with a nil error, `load` returns
`ErrNotFound`, not nil. -/
theorem C10_counterexample :
    (load [] [((none : Option Blob), (none : Option Err))] "k").err = some .notFound ∧
    ((none : Option Blob), (none : Option Err)).2 = none ∧
    some Err.notFound ≠ (none : Option Err) := by decide

/-- C10 (amended): in bytes mode, when no handler produces a cleanly
successful non-empty result, the collected error is always the error of the
last handler consulted, and `load` returns it unless it is nil and the
retained blob is empty (in which case `ErrNotFound` is returned); a later
handler returning an empty blob with nil error thus clears every earlier
error, so `load` can return a non-empty blob obtained from an earlier
failing storage together with a nil overall error and no recorded
origin. -/
theorem C10_amended_thm (s l : List Handler) (key : String) (hk : ¬key = "")
    (hnc : ∀ h ∈ s ++ l, ¬CleanHit h) :
    load s l key =
      ⟨tentative (s ++ l) none, none,
        if lastErr (s ++ l) none = none ∧ isBlobEmpty (tentative (s ++ l) none) = true
        then some .notFound else lastErr (s ++ l) none⟩ :=
  load_noClean s l key hk hnc

/-- Witness for C10: a failing non-empty storage followed by a loader
returning an empty blob with nil error makes `load` return the storage's
blob with a nil error and no origin. -/
theorem C10_witness :
    load [(some ⟨1, true⟩, some Err.internal)] [((none : Option Blob), (none : Option Err))] "k"
      = ⟨some ⟨1, true⟩, none, none⟩ := by
  have h := C10_amended_thm [(some ⟨1, true⟩, some Err.internal)]
    [((none : Option Blob), (none : Option Err))] "k" (by decide) (by decide)
  rw [h]
  decide

/-! ## Claim C8 -/

/-- C8 as stated is false: `load` also returns `ErrNotFound` outside the
two listed situations, namely when a consulted handler itself returns
`ErrNotFound` as the collected error (here the key is non-empty and an
error was collected). -/
theorem C8_counterexample :
    (load [] [((none : Option Blob), some Err.notFound)] "k").err = some .notFound ∧
    ¬("k" = "") ∧
    lastErr [((none : Option Blob), some Err.notFound)] none ≠ none := by decide

/-- C8 (amended): in bytes mode, `load` returns `ErrNotFound` exactly when
the key is the empty string (immediately, before consulting any handler),
or when after consulting all storages and loaders no handler produced a
cleanly successful non-empty result and either no error was collected with
the retained blob empty (in particular an empty storage and loader list),
or the collected (last) error is itself `ErrNotFound`. -/
theorem C8_amended_thm (s l : List Handler) (key : String) :
    (load s l key).err = some .notFound ↔
      (key = "" ∨
        ((∀ h ∈ s ++ l, ¬CleanHit h) ∧
          ((lastErr (s ++ l) none = none ∧ isBlobEmpty (tentative (s ++ l) none) = true) ∨
            lastErr (s ++ l) none = some .notFound))) := by
  by_cases hk : key = ""
  · simp [load, hk]
  · by_cases hnc : ∀ h ∈ s ++ l, ¬CleanHit h
    · rw [load_noClean s l key hk hnc]
      show (if lastErr (s ++ l) none = none ∧ isBlobEmpty (tentative (s ++ l) none) = true
            then some Err.notFound else lastErr (s ++ l) none) = some Err.notFound ↔ _
      by_cases hcond :
          lastErr (s ++ l) none = none ∧ isBlobEmpty (tentative (s ++ l) none) = true
      · rw [if_pos hcond]
        exact ⟨fun _ => Or.inr ⟨hnc, Or.inl hcond⟩, fun _ => rfl⟩
      · rw [if_neg hcond]
        constructor
        · intro h
          exact Or.inr ⟨hnc, Or.inr h⟩
        · rintro (hkey | ⟨-, hc | hc⟩)
          · exact absurd hkey hk
          · exact absurd hc hcond
          · exact hc
    · have hex : ∃ h ∈ s ++ l, CleanHit h := by
        push_neg at hnc
        obtain ⟨h, hm, hc⟩ := hnc
        exact ⟨h, hm, hc⟩
      rw [load_err_none_of_clean s l key hk hex]
      constructor
      · intro h
        exact Option.noConfusion h
      · rintro (hkey | ⟨hall, -⟩)
        · exact absurd hkey hk
        · obtain ⟨h, hm, hc⟩ := hex
          exact absurd hc (hall h hm)

/-- Witness for C8: an empty storage and loader list with a non-empty key
yields `ErrNotFound`. -/
theorem C8_witness : (load [] [] "k").err = some .notFound :=
  (C8_amended_thm [] [] "k").mpr (by decide)

/-! ## Claim C6 -/

/-- C6 as stated is false: with all handlers failing without a blob, the
last error wins even when it is `ErrPass`; here the last non-pass error is
`ErrInternal` but `load` returns `ErrPass` (which the surface then renders
as `ErrNotFound`, not as the last non-pass error). -/
theorem C6_counterexample :
    (load [] [((none : Option Blob), some Err.internal), (none, some Err.pass)] "k").err
        = some .pass ∧ Err.pass ≠ .internal := by decide

/-- C6 (amended): `ErrPass` is never user-visible: for every request whose
load handlers all fail without producing a blob, the last error wins (even
when it is `ErrPass`, in which case earlier non-pass errors are dropped),
with a nil last error becoming `ErrNotFound`; and an `ErrPass` outcome is
rewritten to `ErrNotFound` before being rendered to the client, so no
rendered error is ever `ErrPass`. -/
theorem C6_amended_thm (s l : List Handler) (key : String) (hk : ¬key = "")
    (hemp : ∀ h ∈ s ++ l, isBlobEmpty h.1 = true) :
    (load s l key).err = some ((lastErr (s ++ l) none).getD .notFound) ∧
    renderError .pass = .notFound ∧
    ∀ e, renderError e ≠ .pass := by
  have hnc : ∀ h ∈ s ++ l, ¬CleanHit h := by
    intro h hm hc
    have := (hemp h hm).symm.trans hc.1
    exact absurd this (by decide)
  have ht : tentative (s ++ l) none = none := tentative_allEmpty (s ++ l) none hemp
  refine ⟨?_, by simp [renderError], ?_⟩
  · rw [load_noClean s l key hk hnc]
    simp only [ht]
    rcases hle : lastErr (s ++ l) none with _ | e
    · simp [isBlobEmpty]
    · simp [isBlobEmpty]
  · intro e
    by_cases he : e = .pass
    · subst he
      simp [renderError]
    · simp [renderError, he]

/-- Witness for C6: a single loader declining with `ErrPass` makes `load`
surface `ErrPass` as its (last) error, and the render step rewrites it to
`ErrNotFound`. -/
theorem C6_witness :
    (load [] [((none : Option Blob), some Err.pass)] "k").err
        = some ((lastErr [((none : Option Blob), some Err.pass)] none).getD .notFound) ∧
    renderError .pass = .notFound ∧
    ∀ e, renderError e ≠ .pass :=
  C6_amended_thm [] [((none : Option Blob), some Err.pass)] "k" (by decide) (by decide)

/-! ## Claim C2 -/

/-- C2 (confirmed): the processor chain applies processors in order and, at
each step: a nil error adopts the returned blob as the final result and
stops; `ErrPass` with a non-empty blob adopts that blob as the new current
blob and continues; `ErrPass` with an empty blob keeps the current blob and
continues; any other error is recorded and the chain continues, except that
a deadline-exceeded error stops the chain immediately, the recorded error
being the deadline error regardless of earlier processors' errors. -/
theorem C2_thm (p : Proc) (ps : List Proc) (blob b : Option Blob) (err : Option Err) (e : Err) :
    (p blob = (b, none) → processorChain (p :: ps) blob err = (b, none)) ∧
    (p blob = (b, some .pass) → isBlobEmpty b = false →
      processorChain (p :: ps) blob err = processorChain ps b err) ∧
    (p blob = (b, some .pass) → isBlobEmpty b = true →
      processorChain (p :: ps) blob err = processorChain ps blob err) ∧
    (p blob = (b, some e) → e ≠ .pass → e ≠ .deadlineExceeded →
      processorChain (p :: ps) blob err = processorChain ps blob (some e)) ∧
    (p blob = (b, some .deadlineExceeded) →
      processorChain (p :: ps) blob err = (blob, some .deadlineExceeded)) := by
  refine ⟨?_, ?_, ?_, ?_, ?_⟩
  · intro h
    simp only [processorChain, h]
  · intro h hb
    simp only [processorChain, h]
    simp [hb]
  · intro h hb
    simp only [processorChain, h]
    simp [hb]
  · intro h he hd
    simp only [processorChain, h]
    simp [he, hd]
  · intro h
    simp only [processorChain, h]
    simp

/-- Witness for C2 (spec scenario 5): a processor declining with `ErrPass`
but carrying an alternative blob hands that blob to the next processor,
whose success becomes the chain's result. -/
theorem C2_witness :
    processorChain [fun _ => (some ⟨7, true⟩, some Err.pass), fun b => (b, none)]
        (some ⟨1, true⟩) none = (some ⟨7, true⟩, none) := by
  have h1 := (C2_thm (fun _ => (some ⟨7, true⟩, some Err.pass)) [fun b => (b, none)]
    (some ⟨1, true⟩) (some ⟨7, true⟩) none Err.pass).2.1 rfl (by decide)
  have h2 := (C2_thm (fun b => (b, none)) [] (some ⟨7, true⟩) (some ⟨7, true⟩) none
    Err.pass).1 rfl
  rw [h1, h2]

/-! ## Claim C3 -/

/-- C3 as stated is false: a result-cache write is not reserved for
processed outputs; with an empty processor list the chain ends with no
error and the raw source blob itself is written to the result storages. -/
theorem C3_counterexample :
    (doWork (some ⟨1, true⟩) false none [] true "res" "img").write
        = some ("res", some ⟨1, true⟩) ∧
    processorChain [] (some ⟨1, true⟩) none = (some ⟨1, true⟩, none) := by decide

/-- C3 (amended): for every request whose source load succeeded with a
non-empty blob, a result-cache write to the result storages keyed by the
result key is triggered if and only if the processor chain ended with no
error and result storages are configured; the entry written is the chain's
final blob, which equals the raw source blob when no processor succeeds
(for example with an empty processor chain). -/
theorem C3_amended_thm (lsBlob : Option Blob) (isSave : Bool) (lsErr : Option Err)
    (procs : List Proc) (hrs : Bool) (rk ik : String)
    (h1 : lsErr = none) (h2 : isBlobEmpty lsBlob = false) :
    ((doWork lsBlob isSave lsErr procs hrs rk ik).write ≠ none ↔
      ((processorChain procs lsBlob none).2 = none ∧ hrs = true)) ∧
    (doWork lsBlob isSave lsErr procs hrs rk ik).write =
      (if (processorChain procs lsBlob none).2 = none ∧ hrs = true
       then some (rk, (processorChain procs lsBlob none).1) else none) := by
  subst h1
  rw [doWork, if_neg (by simp), if_neg (by simp [h2])]
  constructor
  · by_cases hcond : (processorChain procs lsBlob none).2 = none ∧ hrs = true
    · simp [hcond]
    · simp [hcond]
  · rfl

/-- Witness for C3: a processor failing with a non-deadline error leaves
the chain in error, so no result-cache write is recorded. -/
theorem C3_witness :
    (doWork (some ⟨1, true⟩) false none [fun b => (b, some Err.internal)] true "res" "img").write
      = none := by
  have h := (C3_amended_thm (some ⟨1, true⟩) false none [fun b => (b, some Err.internal)]
    true "res" "img" rfl (by decide)).2
  rw [h]
  decide

/-! ## Claim C4 -/

/-- C4 (confirmed): the save-back of the source blob under the image key is
recorded if and only if the load succeeded with nil error, a non-empty
blob, a nil origin and at least one source storage configured; the `isSave`
flag reports exactly whether this happened; and the delete fan-out on the
source storages under the image key is recorded if and only if the request
ended in error with `isSave` set. -/
theorem C4_thm (storages loaders : List Handler) (key rk ik : String)
    (procs : List Proc) (hrs : Bool) :
    ((loadStorage storages loaders key).save ≠ none ↔ SaveCond storages loaders key) ∧
    ((loadStorage storages loaders key).save =
      (if SaveCond storages loaders key
       then some (key, (load storages loaders key).blob) else none)) ∧
    ((loadStorage storages loaders key).isSave = true ↔
      (loadStorage storages loaders key).save ≠ none) ∧
    ((doWork (loadStorage storages loaders key).blob (loadStorage storages loaders key).isSave
        (loadStorage storages loaders key).err procs hrs rk ik).delete = some ik ↔
      ((doWork (loadStorage storages loaders key).blob (loadStorage storages loaders key).isSave
          (loadStorage storages loaders key).err procs hrs rk ik).err ≠ none ∧
        (loadStorage storages loaders key).isSave = true)) := by
  have hls : loadStorage storages loaders key =
      if SaveCond storages loaders key
      then ⟨(load storages loaders key).blob, true, (load storages loaders key).err,
        some (key, (load storages loaders key).blob)⟩
      else ⟨(load storages loaders key).blob, false, (load storages loaders key).err, none⟩ := by
    rw [loadStorage]
  rw [hls]
  by_cases hcond : SaveCond storages loaders key
  · simp only [if_pos hcond]
    refine ⟨⟨fun _ => hcond, fun _ => by simp⟩, trivial, by simp, ?_⟩
    rw [doWork, if_neg (by simp [hcond.1]), if_neg (by simp [hcond.2.1])]
    by_cases hchain : (processorChain procs (load storages loaders key).blob none).2 = none
    · simp [hchain]
    · simp [hchain]
  · simp only [if_neg hcond]
    refine ⟨⟨fun h => absurd rfl h, fun h => absurd h hcond⟩, trivial, by simp, ?_⟩
    by_cases herr : (load storages loaders key).err = none
    · rw [doWork, if_neg (by simp [herr])]
      by_cases hb : isBlobEmpty (load storages loaders key).blob = true
      · rw [if_pos hb]
        simp [herr]
      · rw [if_neg hb]
        simp
    · rw [doWork, if_pos (by simp [herr])]
      simp [herr]

/-- Witness for C4: a loader-served non-empty blob with a configured source
storage records the save-back of the source blob under the image key, and a
later processor failure triggers the delete fan-out under that key. -/
theorem C4_witness :
    (loadStorage [((none : Option Blob), (none : Option Err))] [(some ⟨1, true⟩, none)]
      "img").save = some ("img", some ⟨1, true⟩) ∧
    (doWork
      (loadStorage [((none : Option Blob), (none : Option Err))] [(some ⟨1, true⟩, none)]
        "img").blob
      (loadStorage [((none : Option Blob), (none : Option Err))] [(some ⟨1, true⟩, none)]
        "img").isSave
      (loadStorage [((none : Option Blob), (none : Option Err))] [(some ⟨1, true⟩, none)]
        "img").err
      [fun b => (b, some Err.internal)] false "res" "img").delete = some "img" := by
  constructor
  · have h := (C4_thm [((none : Option Blob), (none : Option Err))] [(some ⟨1, true⟩, none)]
      "img" "res" "img" [fun b => (b, some Err.internal)] false).2.1
    rw [h]
    decide
  · have h := (C4_thm [((none : Option Blob), (none : Option Err))] [(some ⟨1, true⟩, none)]
      "img" "res" "img" [fun b => (b, some Err.internal)] false).2.2.2
    exact h.mpr (by decide)

/-! ## Claim C5 -/

/-- C5 (confirmed): if the context already carries the true holding marker
for the key, `suppress` invokes `fn` directly with the unchanged context
and does not go through the shared singleflight group; for a context not
carrying the marker for that key, the call is routed through the per-key
group, whose closure invokes `fn` with the marker attached to the
context. -/
theorem C5_thm (ctx : Ctx) (key : String) (fn : Ctx → Option Blob × Option Err) :
    (ctxValue ctx key = some true →
      suppress ctx key fn =
        ⟨(fn ctx).1, (fn ctx).2, false, ctx, false⟩) ∧
    (¬ctxValue ctx key = some true →
      suppress ctx key fn =
        ⟨(fn (ctxWith ctx key true)).1, (fn (ctxWith ctx key true)).2, true,
          ctxWith ctx key true, (fn (ctxWith ctx key true)).2 == some .canceled⟩) := by
  constructor
  · intro h
    rw [suppress, if_pos h]
  · intro h
    rw [suppress, if_neg h]

/-- Witness for C5: with the marker held the closure runs on the unchanged
context and the group is bypassed; without it the group is used and the
closure sees the marker. -/
theorem C5_witness :
    suppress [("img:a", true)] "img:a" (fun _ => (none, none)) =
      ⟨none, none, false, [("img:a", true)], false⟩ ∧
    suppress [] "img:a" (fun _ => (none, none)) =
      ⟨none, none, true, [("img:a", true)], false⟩ := by
  constructor
  · exact (C5_thm [("img:a", true)] "img:a" (fun _ => (none, none))).1 (by decide)
  · exact (C5_thm [] "img:a" (fun _ => (none, none))).2 (by decide)

/-! ## Claim C7 -/

/-- C7 (confirmed): for a result-cache hit (nil error, non-empty blob) with
modified-time check enabled and a known origin storage whose stat succeeds,
and a source stat obtained by `storageStat`, the hit is returned if and
only if the result's modified time is at least the source's; otherwise the
probe yields no blob. -/
theorem C7_thm (rs : List Handler) (rk : String) (statOf : Nat → StatRes)
    (srcStats : List StatRes) (i : Nat) (resS srcS : Stat)
    (h1 : (load rs [] rk).err = none)
    (h2 : isBlobEmpty (load rs [] rk).blob = false)
    (h3 : (load rs [] rk).origin = some i)
    (h4 : statOf i = (some resS, none))
    (h5 : storageStat srcStats = (some srcS, none)) :
    loadResult rs rk true statOf srcStats =
      (if srcS.modifiedTime ≤ resS.modifiedTime then (load rs [] rk).blob else none) := by
  rw [loadResult]
  simp only [h1, h2, h3, h4, h5]
  simp [Int.not_lt]

/-- Witness for C7: a fresh hit (result stat 5, source stat 3) is returned;
the comparison admits it since the result is not older than the source. -/
theorem C7_witness :
    loadResult [(some ⟨1, true⟩, none)] "k" true (fun _ => (some ⟨5⟩, none))
      [(some ⟨3⟩, none)] = some ⟨1, true⟩ := by
  have h := C7_thm [(some ⟨1, true⟩, none)] "k" (fun _ => (some ⟨5⟩, none))
    [(some ⟨3⟩, none)] 0 ⟨5⟩ ⟨3⟩ (by decide) (by decide) (by decide) rfl (by decide)
  rw [h]
  decide

/-! ## Claim C9 -/

/-- The spec error-code table never uses status 499: that status is
reserved for the cancellation branch checked before `WrapError`. -/
theorem errCode_ne_499 (e : Err) : errCode e ≠ 499 := by
  cases e <;> simp [errCode]

/-- C9 (confirmed): the rendered HTTP status is 499 if and only if the
outcome of `Do` is the context-cancellation error, and in that case the
response carries no body. -/
theorem C9_thm (blob : Option Blob) (err : Option Err) (d : Bool) :
    ((render blob err d).1 = 499 ↔ err = some .canceled) ∧
    (err = some .canceled → (render blob err d).2 = .empty) := by
  rcases err with _ | e
  · by_cases hb : isBlobEmpty blob = true <;> simp [render, hb]
  · by_cases hc : e = .canceled
    · subst hc
      simp [render]
    · have hne := errCode_ne_499 e
      by_cases hd : d = true
      · simp [render, hc, hd, hne]
      · by_cases hb : isBlobEmpty blob = false
        · simp [render, hc, hd, hb, hne]
        · simp [render, hc, hd, hb, hne]

/-- Witness for C9: a canceled outcome renders status 499 with an empty
body. -/
theorem C9_witness :
    (render none (some .canceled) false).1 = 499 ∧
    (render none (some .canceled) false).2 = .empty :=
  ⟨(C9_thm none (some .canceled) false).1.mpr rfl,
    (C9_thm none (some .canceled) false).2 rfl⟩

end Imagor
